import Mathlib

set_option autoImplicit false

namespace TimerFW

/-- Command tokens shared between BLE and demo mode, embedding the C enum
VoiceCommand from src/device_code/command_protocol.h. The underlying
uint8_t values are 0 through 5 in declaration order; they are recorded by
VoiceCommand.val below. -/
inductive VoiceCommand where
  | CMD_NONE
  | CMD_SET
  | CMD_CANCEL
  | CMD_ADD
  | CMD_MINUS
  | CMD_STOP
deriving DecidableEq

/-- Numeric value of each enumerator, exactly as written in the header:
CMD_NONE = 0, CMD_SET = 1, CMD_CANCEL = 2, CMD_ADD = 3, CMD_MINUS = 4,
CMD_STOP = 5. -/
def VoiceCommand.val : VoiceCommand → Nat
  | .CMD_NONE => 0
  | .CMD_SET => 1
  | .CMD_CANCEL => 2
  | .CMD_ADD => 3
  | .CMD_MINUS => 4
  | .CMD_STOP => 5

/-- Enumerator carrying a given numeric value, if any; inverse of
VoiceCommand.val on the enum range 0 to 5. -/
def VoiceCommand.fromVal : Nat → Option VoiceCommand
  | 0 => some .CMD_NONE
  | 1 => some .CMD_SET
  | 2 => some .CMD_CANCEL
  | 3 => some .CMD_ADD
  | 4 => some .CMD_MINUS
  | 5 => some .CMD_STOP
  | _ => none

/-- Embedding of struct ParsedCommand from command_protocol.h. The C field
name is a char array of capacity 16 holding a null-terminated string of at
most 15 characters; it is modelled here by its logical character content,
and nameBuffer below gives the 16-byte stored form. duration is the
uint32_t field, modelled as a Nat below 2 to the 32. -/
structure ParsedCommand where
  cmd : VoiceCommand
  name : List Char
  duration : Nat
deriving DecidableEq

/-- Modulus of the uint32_t duration field. -/
def UINT32_MOD : Nat := 4294967296

/-- The terminator character of a C string, value 0. -/
def nullChar : Char := Char.ofNat 0

/-- The 16-byte stored form of the name field: the logical content followed
by null padding up to the 16-byte capacity of char name[16]. -/
def nameBuffer (n : List Char) : List Char :=
  n ++ List.replicate (16 - n.length) nullChar

/-- Decoding of a raw 16-byte name buffer back to its logical content: the
characters before the first terminator. -/
def bufferToName (buf : List Char) : List Char :=
  buf.takeWhile (fun c => c ≠ nullChar)

/-- An all-zero 16-byte name buffer, as left by zero initialization of the
aggregate ParsedCommand. -/
def zeroBuffer : List Char := List.replicate 16 nullChar

/-- The safe no-op record: cmd = CMD_NONE, empty name, duration 0. This is
what the parser returns for anything it cannot recognize. -/
def noneCommand : ParsedCommand := ⟨.CMD_NONE, [], 0⟩

/-- The record obtained by zero-initializing a ParsedCommand aggregate:
the cmd byte 0 decoded through the enum, an all-zero name buffer decoded as
a C string, and duration 0. -/
def zeroParsedCommand : ParsedCommand :=
  ⟨(VoiceCommand.fromVal 0).getD .CMD_STOP, bufferToName zeroBuffer, 0⟩

/-- Lower-case numeric code of a character: ASCII upper-case letters are
shifted onto their lower-case counterparts, everything else is kept.
Used for the case-insensitive keyword comparison. -/
def lowerVal (c : Char) : Nat :=
  if 65 ≤ c.toNat ∧ c.toNat ≤ 90 then c.toNat + 32 else c.toNat

/-- Keyword literal set. -/
def setKW : List Char := "set".data

/-- Keyword literal cancel. -/
def cancelKW : List Char := "cancel".data

/-- Keyword literal add. -/
def addKW : List Char := "add".data

/-- Keyword literal minus. -/
def minusKW : List Char := "minus".data

/-- Keyword literal subtract. -/
def subtractKW : List Char := "subtract".data

/-- Keyword literal stop. -/
def stopKW : List Char := "stop".data

/-- Modelled from the spec: the Command Parser is absent from the source
(only the protocol header exists under src). This is the fixed keyword
table of section 4.1, matched case-insensitively. -/
def keywordMap (kw : List Char) : Option VoiceCommand :=
  let k := kw.map lowerVal
  if k = setKW.map lowerVal then some .CMD_SET
  else if k = cancelKW.map lowerVal then some .CMD_CANCEL
  else if k = addKW.map lowerVal then some .CMD_ADD
  else if k = minusKW.map lowerVal then some .CMD_MINUS
  else if k = subtractKW.map lowerVal then some .CMD_MINUS
  else if k = stopKW.map lowerVal then some .CMD_STOP
  else none

/-- Splitting worker: accumulates the current token in reverse. -/
def splitAux : List Char → List Char → List (List Char)
  | [], acc => if acc = [] then [] else [acc.reverse]
  | c :: cs, acc =>
    if c = ' ' then
      if acc = [] then splitAux cs []
      else acc.reverse :: splitAux cs []
    else splitAux cs (c :: acc)

/-- Whitespace tokenization of one input line into its tokens. -/
def lineTokens (s : List Char) : List (List Char) := splitAux s []

/-- Numeric value of a decimal digit character, if it is one. -/
def digitVal (c : Char) : Option Nat :=
  if 48 ≤ c.toNat ∧ c.toNat ≤ 57 then some (c.toNat - 48) else none

/-- Decimal accumulator for parseNatTok. -/
def parseNatAux : List Char → Nat → Option Nat
  | [], acc => some acc
  | c :: cs, acc =>
    match digitVal c with
    | some d => parseNatAux cs (acc * 10 + d)
    | none => none

/-- Modelled from the spec: parse of the numeric duration token as a
non-negative decimal integer; anything else fails. -/
def parseNatTok : List Char → Option Nat
  | [] => none
  | c :: cs => parseNatAux (c :: cs) 0

/-- Modelled from the spec: truncation of a name token to the 15 characters
that fit the char name[16] field beside its terminator. -/
def truncName (tok : List Char) : List Char := tok.take 15

/-- Modelled from the spec: shape check for the token list after a SET, ADD
or MINUS keyword; true exactly when the expected numeric duration token is
present and parses, with an optional name token before it. -/
def durationShapeOk : List (List Char) → Bool
  | [d] => (parseNatTok d).isSome
  | [_, d] => (parseNatTok d).isSome
  | _ => false

/-- Modelled from the spec: the SET, ADD and MINUS argument rule of section
4.1. An optional name token followed by a numeric duration token; if the
numeric token is absent or fails to parse, the result degrades to the
noneCommand record. -/
def parseSetLike (c : VoiceCommand) : List (List Char) → ParsedCommand
  | [d] =>
    match parseNatTok d with
    | some v => ⟨c, [], v % UINT32_MOD⟩
    | none => noneCommand
  | [n, d] =>
    match parseNatTok d with
    | some v => ⟨c, truncName n, v % UINT32_MOD⟩
    | none => noneCommand
  | _ => noneCommand

/-- Modelled from the spec: the Command Parser of section 4.1, absent from
the source, applied to the token list of one line. The leading keyword is
mapped through keywordMap; SET, ADD and MINUS take an optional name and a
required duration; CANCEL takes an optional name; STOP ignores the rest;
anything unrecognized yields the noneCommand record. -/
def parseCmd : List (List Char) → ParsedCommand
  | [] => noneCommand
  | kw :: rest =>
    match keywordMap kw with
    | none => noneCommand
    | some .CMD_SET => parseSetLike .CMD_SET rest
    | some .CMD_ADD => parseSetLike .CMD_ADD rest
    | some .CMD_MINUS => parseSetLike .CMD_MINUS rest
    | some .CMD_CANCEL =>
      match rest with
      | [] => ⟨.CMD_CANCEL, [], 0⟩
      | n :: _ => ⟨.CMD_CANCEL, truncName n, 0⟩
    | some .CMD_STOP => ⟨.CMD_STOP, [], 0⟩
    | some .CMD_NONE => noneCommand

/-- Modelled from the spec: the whole Command Parser on a raw input line. -/
def parseLineL (line : List Char) : ParsedCommand := parseCmd (lineTokens line)

/-- Modelled from the spec: the Command Parser on a String input. -/
def parseLine (line : String) : ParsedCommand := parseLineL line.data

/-- Modelled from the spec: per-timer state of the Dispatcher state machine
in section 4.2; a timer absent from the table is Idle or Cancelled. -/
inductive TimerState where
  | Running
  | Expired
deriving DecidableEq

/-- Modelled from the spec: a named timer record of section 3, holding the
remaining-duration counter and the running flag. -/
structure Timer where
  remaining : Nat
  state : TimerState
deriving DecidableEq

/-- Modelled from the spec: the in-memory collection of named timers owned
by the Dispatcher, keyed by name. -/
abbrev TimerTable := List (List Char × Timer)

/-- Lookup of the named timer in the table. -/
def lookupTimer : TimerTable → List Char → Option Timer
  | [], _ => none
  | (k, tm) :: rest, n => if k = n then some tm else lookupTimer rest n

/-- Removal of every entry of the given name from the table. -/
def removeTimer : TimerTable → List Char → TimerTable
  | [], _ => []
  | (k, tm) :: rest, n =>
    if k = n then removeTimer rest n
    else (k, tm) :: removeTimer rest n

/-- Replacement of the named timer by a new record, in place. -/
def updateTimer : TimerTable → List Char → Timer → TimerTable
  | [], _, _ => []
  | (k, old) :: rest, n, tm =>
    if k = n then (k, tm) :: updateTimer rest n tm
    else (k, old) :: updateTimer rest n tm

/-- Modelled from the spec: SET creates or resets the named timer to the
given duration and transitions it to Running, except that duration 0 means
immediate completion and the timer is created already Expired. -/
def setTimer (t : TimerTable) (n : List Char) (d : Nat) : TimerTable :=
  (n, ⟨d, if d = 0 then .Expired else .Running⟩) :: removeTimer t n

/-- Modelled from the spec: the dispatch-result status of section 4.2. -/
inductive DispatchStatus where
  | ok
  | not_found
  | ignored
deriving DecidableEq

/-- Modelled from the spec: the Command Dispatcher of section 4.2, absent
from the source. SET creates or resets; ADD increases a Running timer and
is treated as SET when the name is absent; MINUS decreases floored at zero
and floors transition to Expired immediately; CANCEL removes regardless of
state; STOP removes every timer; CMD_NONE never mutates any timer. -/
def dispatch (t : TimerTable) (pc : ParsedCommand) : TimerTable × DispatchStatus :=
  match pc.cmd with
  | .CMD_NONE => (t, .ignored)
  | .CMD_SET => (setTimer t pc.name pc.duration, .ok)
  | .CMD_ADD =>
    match lookupTimer t pc.name with
    | none => (setTimer t pc.name pc.duration, .ok)
    | some tm =>
      if tm.state = .Running then
        (updateTimer t pc.name ⟨tm.remaining + pc.duration, .Running⟩, .ok)
      else (t, .ignored)
  | .CMD_MINUS =>
    match lookupTimer t pc.name with
    | none => (t, .not_found)
    | some tm =>
      (updateTimer t pc.name
        ⟨tm.remaining - pc.duration,
         if tm.remaining - pc.duration = 0 then .Expired else tm.state⟩, .ok)
  | .CMD_CANCEL => (removeTimer t pc.name, .ok)
  | .CMD_STOP => ([], .ok)

/-- Concrete line with a 20-character name token, for exercising truncation. -/
def longNameLine : List Char := "set abcdefghijklmnopqrst 5".data

/-- First 15 characters of the 20-character name above. -/
def longNameStored : List Char := "abcdefghijklmno".data

/-- Concrete unrecognized input line. -/
def helloLine : List Char := "hello world".data

/-- Leading token of helloLine. -/
def helloKW : List Char := "hello".data

/-- Second token of helloLine. -/
def worldTok : List Char := "world".data

/-- Concrete line whose duration token does not parse. -/
def badLine : List Char := "set kettle abc".data

/-- Name token of badLine. -/
def kettleTok : List Char := "kettle".data

/-- Malformed duration token of badLine. -/
def abcTok : List Char := "abc".data

/-- Concrete timer name used in witnesses. -/
def teaName : List Char := "tea".data

/-- Concrete one-timer table used in witnesses. -/
def teaTable : TimerTable := [(teaName, ⟨180, .Running⟩)]

/-- Looking a name up in the table it was just removed from finds nothing. -/
theorem lookupTimer_removeTimer_self (n : List Char) :
    ∀ t : TimerTable, lookupTimer (removeTimer t n) n = none := by
  intro t
  induction t with
  | nil => rfl
  | cons p rest ih =>
    obtain ⟨k, tm⟩ := p
    by_cases h : k = n
    · simpa [removeTimer, h] using ih
    · simp [removeTimer, lookupTimer, h, ih]

/-- Removing an absent name leaves the table unchanged. -/
theorem removeTimer_eq_of_lookup_none (n : List Char) :
    ∀ t : TimerTable, lookupTimer t n = none → removeTimer t n = t := by
  intro t
  induction t with
  | nil => intro _; rfl
  | cons p rest ih =>
    obtain ⟨k, tm⟩ := p
    intro h
    by_cases hk : k = n
    · simp [lookupTimer, hk] at h
    · simp [lookupTimer, hk] at h
      simp [removeTimer, hk, ih h]

/-- Updating a present name makes lookup return the new record. -/
theorem lookupTimer_updateTimer_self (n : List Char) (tm tm0 : Timer) :
    ∀ t : TimerTable, lookupTimer t n = some tm0 →
      lookupTimer (updateTimer t n tm) n = some tm := by
  intro t
  induction t with
  | nil => intro h; simp [lookupTimer] at h
  | cons p rest ih =>
    obtain ⟨k, old⟩ := p
    intro h
    by_cases hk : k = n
    · simp [updateTimer, lookupTimer, hk]
    · simp [lookupTimer, hk] at h
      simp [updateTimer, lookupTimer, hk, ih h]

/-- Element just past a list inside an append. -/
theorem get?_append_self {α : Type} (l m : List α) :
    (l ++ m).get? l.length = m.get? 0 := by
  induction l with
  | nil => rfl
  | cons a l ih => simpa using ih

/-- Stored 16-byte form of a short name: full capacity and a terminator
right after the content. -/
theorem nameBuffer_spec (n : List Char) (h : n.length ≤ 15) :
    (nameBuffer n).length = 16 ∧ (nameBuffer n).get? n.length = some nullChar := by
  constructor
  · simp [nameBuffer]
    omega
  · have h2 : 16 - n.length = (15 - n.length) + 1 := by omega
    rw [nameBuffer, h2, get?_append_self, List.replicate_succ]
    rfl

/-- Truncated names fit beside the terminator. -/
theorem truncName_len (tok : List Char) : (truncName tok).length ≤ 15 := by
  simp [truncName]

/-- The name produced by the SET, ADD and MINUS argument rule is bounded. -/
theorem parseSetLike_name_len (c : VoiceCommand) (rest : List (List Char)) :
    (parseSetLike c rest).name.length ≤ 15 := by
  rcases rest with _ | ⟨d, _ | ⟨e, _ | ⟨f, r⟩⟩⟩
  · simp [parseSetLike, noneCommand]
  · cases hp : parseNatTok d <;> simp [parseSetLike, hp, noneCommand]
  · cases hp : parseNatTok e <;> simp [parseSetLike, hp, noneCommand, truncName]
  · simp [parseSetLike, noneCommand]

/-- The name produced by the parser on any token list is bounded. -/
theorem parseCmd_name_len (toks : List (List Char)) :
    (parseCmd toks).name.length ≤ 15 := by
  rcases toks with _ | ⟨kw, rest⟩
  · simp [parseCmd, noneCommand]
  · cases hk : keywordMap kw with
    | none => simp [parseCmd, hk, noneCommand]
    | some c =>
      cases c
      case CMD_NONE => simp [parseCmd, hk, noneCommand]
      case CMD_SET => simpa [parseCmd, hk] using parseSetLike_name_len .CMD_SET rest
      case CMD_ADD => simpa [parseCmd, hk] using parseSetLike_name_len .CMD_ADD rest
      case CMD_MINUS => simpa [parseCmd, hk] using parseSetLike_name_len .CMD_MINUS rest
      case CMD_CANCEL =>
        rcases rest with _ | ⟨n, r⟩ <;> simp [parseCmd, hk, truncName]
      case CMD_STOP => simp [parseCmd, hk]

/-- The command field produced by the SET, ADD and MINUS argument rule is
either the keyword's command or the whole record degrades to noneCommand. -/
theorem parseSetLike_cmd (c : VoiceCommand) (rest : List (List Char)) :
    (parseSetLike c rest).cmd = c ∨ parseSetLike c rest = noneCommand := by
  rcases rest with _ | ⟨d, _ | ⟨e, _ | ⟨f, r⟩⟩⟩
  · exact Or.inr rfl
  · cases hp : parseNatTok d with
    | some v => exact Or.inl (by simp [parseSetLike, hp])
    | none => exact Or.inr (by simp [parseSetLike, hp])
  · cases hp : parseNatTok e with
    | some v => exact Or.inl (by simp [parseSetLike, hp])
    | none => exact Or.inr (by simp [parseSetLike, hp])
  · exact Or.inr rfl

/-- With a malformed or absent duration token, the SET, ADD and MINUS
argument rule degrades to noneCommand. -/
theorem parseSetLike_of_shape_false (c : VoiceCommand) (rest : List (List Char))
    (hd : durationShapeOk rest = false) : parseSetLike c rest = noneCommand := by
  rcases rest with _ | ⟨d, _ | ⟨e, _ | ⟨f, r⟩⟩⟩
  · rfl
  · cases hp : parseNatTok d with
    | some v => simp [durationShapeOk, hp] at hd
    | none => simp [parseSetLike, hp]
  · cases hp : parseNatTok e with
    | some v => simp [durationShapeOk, hp] at hd
    | none => simp [parseSetLike, hp]
  · rfl

/-- C1: for every ParsedCommand produced by the parser, the name field is
null-terminated within its 16-byte capacity (at most 15 characters plus
terminator), construction from an input of any length truncates rather than
overflowing, and in particular the 20-character name of longNameLine is
stored as its first 15 characters followed by the terminator. -/
theorem C1_name_bounded :
    (∀ line : List Char,
       (parseLineL line).name.length ≤ 15 ∧
       (nameBuffer (parseLineL line).name).length = 16 ∧
       (nameBuffer (parseLineL line).name).get? (parseLineL line).name.length =
         some nullChar) ∧
    (parseLineL longNameLine).name = longNameStored := by
  constructor
  · intro line
    have h := parseCmd_name_len (lineTokens line)
    have hb := nameBuffer_spec (parseLineL line).name h
    exact ⟨h, hb.1, hb.2⟩
  · decide

/-- C2: the parser maps the leading keyword case-insensitively by the fixed
table set to SET, cancel to CANCEL, add to ADD, minus and subtract to
MINUS, stop to STOP; any input whose leading keyword is not in the table
yields the record with cmd NONE, empty name and duration 0; and a
recognized keyword produces either its own command or that same record. -/
theorem C2_keyword_table :
    (keywordMap setKW = some .CMD_SET ∧ keywordMap cancelKW = some .CMD_CANCEL ∧
     keywordMap addKW = some .CMD_ADD ∧ keywordMap minusKW = some .CMD_MINUS ∧
     keywordMap subtractKW = some .CMD_MINUS ∧ keywordMap stopKW = some .CMD_STOP) ∧
    (∀ a b : List Char, a.map lowerVal = b.map lowerVal → keywordMap a = keywordMap b) ∧
    (∀ (line kw : List Char) (rest : List (List Char)),
       lineTokens line = kw :: rest → keywordMap kw = none →
       parseLineL line = noneCommand) ∧
    (∀ (line kw : List Char) (rest : List (List Char)) (c : VoiceCommand),
       lineTokens line = kw :: rest → keywordMap kw = some c →
       (parseLineL line).cmd = c ∨ parseLineL line = noneCommand) := by
  refine ⟨by decide, ?_, ?_, ?_⟩
  · intro a b h
    simp only [keywordMap, h]
  · intro line kw rest hw hk
    simp [parseLineL, hw, parseCmd, hk]
  · intro line kw rest c hw hk
    have hl : parseLineL line = parseCmd (kw :: rest) := by
      simp [parseLineL, hw]
    rw [hl]
    cases c
    case CMD_NONE => exact Or.inr (by simp [parseCmd, hk])
    case CMD_SET =>
      simpa [parseCmd, hk] using parseSetLike_cmd .CMD_SET rest
    case CMD_ADD =>
      simpa [parseCmd, hk] using parseSetLike_cmd .CMD_ADD rest
    case CMD_MINUS =>
      simpa [parseCmd, hk] using parseSetLike_cmd .CMD_MINUS rest
    case CMD_CANCEL =>
      rcases rest with _ | ⟨n, r⟩ <;> exact Or.inl (by simp [parseCmd, hk])
    case CMD_STOP => exact Or.inl (by simp [parseCmd, hk])

/-- Witness for C2 at the concrete unrecognized line helloLine. -/
theorem C2_keyword_table_witness : parseLineL helloLine = noneCommand :=
  C2_keyword_table.2.2.1 helloLine helloKW [worldTok] (by decide) (by decide)

/-- C3: dispatching SET name duration creates or resets the timer to
exactly that remaining duration, in state Running, or already Expired when
the duration is 0; an immediate query of the name sees exactly that. -/
theorem C3_set_then_query (t : TimerTable) (n : List Char) (d : Nat) :
    lookupTimer (dispatch t ⟨.CMD_SET, n, d⟩).1 n =
      some ⟨d, if d = 0 then .Expired else .Running⟩ := by
  show lookupTimer (setTimer t n d) n = _
  simp [setTimer, lookupTimer]

/-- C4: dispatching MINUS name X on an existing timer with remaining r
yields remaining r - X when X is at most r and 0 when X exceeds r, never a
negative value, and a zero result is Expired immediately at dispatch. -/
theorem C4_minus_floor (t : TimerTable) (n : List Char) (X : Nat) (tm : Timer)
    (h : lookupTimer t n = some tm) :
    ∃ tm', lookupTimer (dispatch t ⟨.CMD_MINUS, n, X⟩).1 n = some tm' ∧
      (X ≤ tm.remaining → tm'.remaining = tm.remaining - X) ∧
      (tm.remaining < X → tm'.remaining = 0) ∧
      (tm'.remaining = 0 → tm'.state = .Expired) := by
  have hd : (dispatch t ⟨.CMD_MINUS, n, X⟩).1 =
      updateTimer t n
        ⟨tm.remaining - X,
         if tm.remaining - X = 0 then .Expired else tm.state⟩ := by
    simp [dispatch, h]
  refine ⟨⟨tm.remaining - X, if tm.remaining - X = 0 then .Expired else tm.state⟩,
    ?_, ?_, ?_, ?_⟩
  · rw [hd]
    exact lookupTimer_updateTimer_self n _ tm t h
  · intro _; rfl
  · intro hx
    simp only []
    omega
  · intro h0
    simp only [] at h0
    simp [h0]

/-- Witness for C4 at the concrete table teaTable with X exceeding the
remaining 180 seconds. -/
theorem C4_minus_floor_witness :
    ∃ tm', lookupTimer (dispatch teaTable ⟨.CMD_MINUS, teaName, 200⟩).1 teaName =
        some tm' ∧
      (200 ≤ (180 : Nat) → tm'.remaining = 180 - 200) ∧
      ((180 : Nat) < 200 → tm'.remaining = 0) ∧
      (tm'.remaining = 0 → tm'.state = .Expired) :=
  C4_minus_floor teaTable teaName 200 ⟨180, .Running⟩ (by decide)

/-- C5: dispatching STOP empties the table regardless of names, with status
ok, so afterwards no query finds any timer; on an empty table it is a no-op
still returning ok. -/
theorem C5_stop_clears (t : TimerTable) (pc : ParsedCommand)
    (h : pc.cmd = .CMD_STOP) :
    dispatch t pc = ([], .ok) ∧
    (∀ n : List Char, lookupTimer (dispatch t pc).1 n = none) ∧
    dispatch ([] : TimerTable) pc = ([], .ok) := by
  have hd : ∀ u : TimerTable, dispatch u pc = ([], .ok) := by
    intro u
    simp [dispatch, h]
  refine ⟨hd t, ?_, hd []⟩
  intro n
  rw [hd t]
  rfl

/-- Witness for C5 at the concrete table teaTable. -/
theorem C5_stop_clears_witness :
    dispatch teaTable ⟨.CMD_STOP, [], 0⟩ = ([], .ok) ∧
    (∀ n : List Char, lookupTimer (dispatch teaTable ⟨.CMD_STOP, [], 0⟩).1 n = none) ∧
    dispatch ([] : TimerTable) ⟨.CMD_STOP, [], 0⟩ = ([], .ok) :=
  C5_stop_clears teaTable ⟨.CMD_STOP, [], 0⟩ rfl

/-- C6: dispatching any command with cmd NONE leaves the whole table
untouched and reports status ignored. -/
theorem C6_none_no_mutation (t : TimerTable) (pc : ParsedCommand)
    (h : pc.cmd = .CMD_NONE) : dispatch t pc = (t, .ignored) := by
  simp [dispatch, h]

/-- Witness for C6 at the concrete table teaTable and the noneCommand
record. -/
theorem C6_none_no_mutation_witness :
    dispatch teaTable noneCommand = (teaTable, .ignored) :=
  C6_none_no_mutation teaTable noneCommand rfl

/-- C7: CANCEL removes the named timer regardless of state, cancelling an
absent name is a no-op, ADD to an absent name behaves exactly as SET, and
CANCEL followed by ADD of 10 equals SET of 10 on the post-CANCEL state. -/
theorem C7_cancel_then_add :
    (∀ (t : TimerTable) (n : List Char),
       lookupTimer (dispatch t ⟨.CMD_CANCEL, n, 0⟩).1 n = none) ∧
    (∀ (t : TimerTable) (n : List Char), lookupTimer t n = none →
       (dispatch t ⟨.CMD_CANCEL, n, 0⟩).1 = t) ∧
    (∀ (t : TimerTable) (n : List Char) (d : Nat), lookupTimer t n = none →
       dispatch t ⟨.CMD_ADD, n, d⟩ = dispatch t ⟨.CMD_SET, n, d⟩) ∧
    (∀ (t : TimerTable) (n : List Char),
       dispatch (dispatch t ⟨.CMD_CANCEL, n, 0⟩).1 ⟨.CMD_ADD, n, 10⟩ =
       dispatch (dispatch t ⟨.CMD_CANCEL, n, 0⟩).1 ⟨.CMD_SET, n, 10⟩) := by
  have hadd : ∀ (t : TimerTable) (n : List Char) (d : Nat),
      lookupTimer t n = none →
      dispatch t ⟨.CMD_ADD, n, d⟩ = dispatch t ⟨.CMD_SET, n, d⟩ := by
    intro t n d h
    simp [dispatch, h]
  have hcan : ∀ (t : TimerTable) (n : List Char),
      lookupTimer (dispatch t ⟨.CMD_CANCEL, n, 0⟩).1 n = none := by
    intro t n
    exact lookupTimer_removeTimer_self n t
  refine ⟨hcan, ?_, hadd, ?_⟩
  · intro t n h
    exact removeTimer_eq_of_lookup_none n t h
  · intro t n
    exact hadd _ n 10 (hcan t n)

/-- Witness for C7: ADD on the empty table behaves as SET. -/
theorem C7_cancel_then_add_witness :
    dispatch ([] : TimerTable) ⟨.CMD_ADD, teaName, 10⟩ =
    dispatch ([] : TimerTable) ⟨.CMD_SET, teaName, 10⟩ :=
  C7_cancel_then_add.2.2.1 [] teaName 10 (by decide)

/-- C8: for a line led by set, add, minus or subtract whose expected
numeric duration token is absent or does not parse as a non-negative
integer, the parser returns the noneCommand record rather than failing or
returning a partial command. -/
theorem C8_missing_duration (line kw : List Char) (rest : List (List Char))
    (c : VoiceCommand) (hw : lineTokens line = kw :: rest)
    (hk : keywordMap kw = some c)
    (hc : c = .CMD_SET ∨ c = .CMD_ADD ∨ c = .CMD_MINUS)
    (hd : durationShapeOk rest = false) :
    parseLineL line = noneCommand := by
  have hl : parseLineL line = parseCmd (kw :: rest) := by
    simp [parseLineL, hw]
  rw [hl]
  rcases hc with h | h | h <;> subst h <;>
    simp [parseCmd, hk, parseSetLike_of_shape_false _ rest hd]

/-- Witness for C8 at the concrete line badLine, whose duration token abc
does not parse. -/
theorem C8_missing_duration_witness : parseLineL badLine = noneCommand :=
  C8_missing_duration badLine setKW [kettleTok, abcTok] .CMD_SET (by decide)
    (by decide) (Or.inl rfl) (by decide)

/-- C9: VoiceCommand takes exactly the six values NONE, SET, CANCEL, ADD,
MINUS, STOP, every parsed record carries one of them, and a record with cmd
NONE never mutates the timer table when dispatched. -/
theorem C9_enum_and_sentinel :
    (∀ c : VoiceCommand, c = .CMD_NONE ∨ c = .CMD_SET ∨ c = .CMD_CANCEL ∨
       c = .CMD_ADD ∨ c = .CMD_MINUS ∨ c = .CMD_STOP) ∧
    (∀ line : List Char, (parseLineL line).cmd = .CMD_NONE ∨
       (parseLineL line).cmd = .CMD_SET ∨ (parseLineL line).cmd = .CMD_CANCEL ∨
       (parseLineL line).cmd = .CMD_ADD ∨ (parseLineL line).cmd = .CMD_MINUS ∨
       (parseLineL line).cmd = .CMD_STOP) ∧
    (∀ (t : TimerTable) (pc : ParsedCommand), pc.cmd = .CMD_NONE →
       (dispatch t pc).1 = t) := by
  have hall : ∀ c : VoiceCommand, c = .CMD_NONE ∨ c = .CMD_SET ∨ c = .CMD_CANCEL ∨
      c = .CMD_ADD ∨ c = .CMD_MINUS ∨ c = .CMD_STOP := by
    intro c
    cases c <;> simp
  refine ⟨hall, ?_, ?_⟩
  · intro line
    exact hall (parseLineL line).cmd
  · intro t pc h
    simp [dispatch, h]

/-- Witness for C9: dispatching the noneCommand record on teaTable leaves
it unchanged. -/
theorem C9_enum_and_sentinel_witness :
    (dispatch teaTable noneCommand).1 = teaTable :=
  C9_enum_and_sentinel.2.2 teaTable noneCommand rfl

/-- C10: the enumerator with value 0 is CMD_NONE and a zero-initialized
ParsedCommand aggregate decodes exactly to the safe no-op record, whose
dispatch never mutates any timer table. -/
theorem C10_zero_init_safe :
    VoiceCommand.fromVal 0 = some .CMD_NONE ∧
    zeroParsedCommand = noneCommand ∧
    ∀ t : TimerTable, (dispatch t zeroParsedCommand).1 = t := by
  refine ⟨rfl, by decide, ?_⟩
  intro t
  rfl

end TimerFW
